import Mathlib

/-!
Verification development for the MySQL-to-Dameng SQL conversion pipeline
(`large_file_converter.py` together with the Dameng dialect definition
`sqlglot/dialects/dameng.py`).

The per-statement preprocessing rules and the global charset rewrite are
Python `re.sub` calls with `re.IGNORECASE`.  Each pattern used by the code
(`USING\s+BTREE`, `ON\s+UPDATE\s+CURRENT_TIMESTAMP`, `ROW_FORMAT\s*=\s*\w+`,
`AUTO_INCREMENT\s*=\s*\d+`, and the literal `utf8mb4`) is embedded as a
matcher on `List Char`: `some rest` means the pattern matches a prefix of the
input and `rest` is what remains after the match.  For these particular
patterns greedy matching with backtracking coincides with taking maximal
character-class runs, because each `\s+`/`\s*`/`\w+`/`\d+` run is followed
either by the end of the pattern or by a literal character outside the class.
Character classes are modelled at ASCII granularity, matching the data the
converter is written for.  `re.sub` scans left to right, replaces each
non-overlapping match and resumes scanning right after the replacement; this
is `scanSubAux`, driven by a fuel argument that starts at the input length
(sufficient, since every matcher consumes at least one character).
-/

/-- ASCII model of the regex class `\s` (space, tab, newline, carriage
return, vertical tab, form feed). -/
def isWs (c : Char) : Bool :=
  c = ' ' || c = '\t' || c = '\n' || c = '\r' || c.toNat = 11 || c.toNat = 12

/-- ASCII model of the regex class `\w` (letters, digits, underscore). -/
def isWordChar (c : Char) : Bool :=
  c.isAlphanum || c = '_'

/-- ASCII model of the regex class `\d`. -/
def isDigitChar (c : Char) : Bool :=
  c.isDigit

/-- Case-insensitive literal match (the `re.IGNORECASE` flag): consume the
pattern `p` from the front of `l`, returning the remainder on success. -/
def matchLitCI : List Char → List Char → Option (List Char)
  | [], l => some l
  | _ :: _, [] => none
  | p :: ps, c :: cs => if p.toLower = c.toLower then matchLitCI ps cs else none

/-- Match `\s+` (at least one whitespace character, maximal run). -/
def matchWsPlus : List Char → Option (List Char)
  | [] => none
  | c :: cs => if isWs c then some (cs.dropWhile isWs) else none

/-- Match `\w+` (at least one word character, maximal run). -/
def matchWordPlus : List Char → Option (List Char)
  | [] => none
  | c :: cs => if isWordChar c then some (cs.dropWhile isWordChar) else none

/-- Match `\d+` (at least one digit, maximal run). -/
def matchDigitPlus : List Char → Option (List Char)
  | [] => none
  | c :: cs => if isDigitChar c then some (cs.dropWhile isDigitChar) else none

/-- Matcher for rule 1 of `preprocess_sql_statement`: `USING\s+BTREE`. -/
def mUsingBtree (l : List Char) : Option (List Char) :=
  (matchLitCI "USING".data l).bind fun l1 =>
  (matchWsPlus l1).bind fun l2 =>
  matchLitCI "BTREE".data l2

/-- Matcher for rule 2: `ON\s+UPDATE\s+CURRENT_TIMESTAMP`. -/
def mOnUpdate (l : List Char) : Option (List Char) :=
  (matchLitCI "ON".data l).bind fun l1 =>
  (matchWsPlus l1).bind fun l2 =>
  (matchLitCI "UPDATE".data l2).bind fun l3 =>
  (matchWsPlus l3).bind fun l4 =>
  matchLitCI "CURRENT_TIMESTAMP".data l4

/-- Matcher for rule 3: `ROW_FORMAT\s*=\s*\w+`. -/
def mRowFormat (l : List Char) : Option (List Char) :=
  (matchLitCI "ROW_FORMAT".data l).bind fun l1 =>
  (matchLitCI "=".data (l1.dropWhile isWs)).bind fun l2 =>
  matchWordPlus (l2.dropWhile isWs)

/-- Matcher for rule 4: `AUTO_INCREMENT\s*=\s*\d+`. -/
def mAutoInc (l : List Char) : Option (List Char) :=
  (matchLitCI "AUTO_INCREMENT".data l).bind fun l1 =>
  (matchLitCI "=".data (l1.dropWhile isWs)).bind fun l2 =>
  matchDigitPlus (l2.dropWhile isWs)

/-- Matcher for the global charset rewrite: the case-insensitive literal
`utf8mb4`. -/
def mUtf8mb4 (l : List Char) : Option (List Char) :=
  matchLitCI "utf8mb4".data l

/-- Model of `re.sub(pattern, repl, text)`: scan left to right; on a match,
emit `repl` and resume right after the matched span; otherwise keep the
current character and advance by one.  The fuel argument makes the recursion
structural; fuel equal to the input length always suffices because every
matcher used here consumes at least one character per match. -/
def scanSubAux (m : List Char → Option (List Char)) (repl : List Char) :
    Nat → List Char → List Char
  | 0, l => l
  | _ + 1, [] => []
  | fuel + 1, c :: cs =>
    match m (c :: cs) with
    | some rest => repl ++ scanSubAux m repl fuel rest
    | none => c :: scanSubAux m repl fuel cs

/-- String-level `re.sub(pattern, "", s)` for one preprocessing rule. -/
def applyRuleStr (m : List Char → Option (List Char)) (s : String) : String :=
  ⟨scanSubAux m [] s.data.length s.data⟩

/-- Embedding of `preprocess_sql_statement`: the four deletion rules applied
in the source's fixed order (USING BTREE, then ON UPDATE CURRENT_TIMESTAMP,
then ROW_FORMAT=, then AUTO_INCREMENT=). -/
def preprocess_sql_statement (s : String) : String :=
  applyRuleStr mAutoInc
    (applyRuleStr mRowFormat
      (applyRuleStr mOnUpdate
        (applyRuleStr mUsingBtree s)))

/-- Embedding of the global preprocessing step
`re.sub(r'utf8mb4', 'UTF8', sql_content, flags=re.IGNORECASE)` applied to
the whole script before parsing. -/
def globalCharsetNormalize (s : String) : String :=
  ⟨scanSubAux mUtf8mb4 "UTF8".data s.data.length s.data⟩

/-- `hasMatch m l` decides whether the pattern matches at some position of
`l` (including the empty suffix). -/
def hasMatch (m : List Char → Option (List Char)) (l : List Char) : Bool :=
  (List.range (l.length + 1)).any fun i => (m (l.drop i)).isSome

/-- A statement text is rule-match-free when none of the four per-statement
deletion patterns matches anywhere in it. -/
def ruleMatchFree (s : String) : Bool :=
  !(hasMatch mUsingBtree s.data || hasMatch mOnUpdate s.data ||
    hasMatch mRowFormat s.data || hasMatch mAutoInc s.data)

/-!
Embedding of the conversion pipeline `convert_mysql_to_dameng`.

The sqlglot front end and generator are external to this repository (only
the Dameng dialect tables live under `sqlglot/`), so the pipeline is
parametrised by an oracle `T : String → Option String` standing for
`transpile(text, read='mysql', write=dameng_dialect, pretty=True)[0]`:
`some rendered` when the call returns a rendering, `none` when it raises.
`sqlglot.parse` yields a list of elements; each element is either not an
`Expression` instance (skipped and counted as failed) or an `Expression`
carrying both the text of its span in the input script (`sourceText`) and
the text the code actually extracts from it via `expr.sql()` (`exprSql`);
the two are distinct fields because `expr.sql()` re-renders the parse tree
and in general differs from the raw input span.
-/

/-- One element of the list returned by `sqlglot.parse`. -/
inductive RawItem where
  | notExpr (repr : String)
  | expr (sourceText : String) (exprSql : String)
deriving DecidableEq

/-- Terminal classification of one statement. -/
inductive Outcome where
  | directSuccess (txt : String)
  | preprocessedSuccess (txt : String)
  | failed
deriving DecidableEq

/-- Result of processing one statement.  `preprocessInput` records the text
handed to `preprocess_sql_statement`, or `none` when the preprocessor was
never invoked for this statement. -/
structure StmtResult where
  outcome : Outcome
  preprocessInput : Option String
deriving DecidableEq

/-- Per-statement body of the loop in `convert_mysql_to_dameng`: try the
direct transpile of `expr.sql()`; only on failure invoke the preprocessor on
that same text and retry; a non-Expression element fails immediately. -/
def processStmt (T : String → Option String) : RawItem → StmtResult
  | .notExpr _ => ⟨.failed, none⟩
  | .expr _ es =>
    match T es with
    | some d => ⟨.directSuccess d, none⟩
    | none =>
      match T (preprocess_sql_statement es) with
      | some p => ⟨.preprocessedSuccess p, some es⟩
      | none => ⟨.failed, some es⟩

/-- Loop state of the pipeline: the three outcome counters and the sequence
of chunks written to the output file. -/
structure ConvStats where
  direct : Nat
  preproc : Nat
  failed : Nat
  out : List String
deriving DecidableEq

/-- One iteration of the statement loop: bump exactly one counter and, on
success, append the rendered text followed by the `;` terminator and a
newline. -/
def stepStmt (T : String → Option String) (st : ConvStats) (it : RawItem) :
    ConvStats :=
  match (processStmt T it).outcome with
  | .directSuccess t =>
      { st with direct := st.direct + 1, out := st.out ++ [t ++ ";\n"] }
  | .preprocessedSuccess t =>
      { st with preproc := st.preproc + 1, out := st.out ++ [t ++ ";\n"] }
  | .failed => { st with failed := st.failed + 1 }

/-- The statement loop of `convert_mysql_to_dameng` over the parsed list. -/
def runPipeline (T : String → Option String) (items : List RawItem) :
    ConvStats :=
  items.foldl (stepStmt T) ⟨0, 0, 0, []⟩

/-- The output chunk a single statement contributes, if any. -/
def emitted (T : String → Option String) (it : RawItem) : Option String :=
  match (processStmt T it).outcome with
  | .directSuccess t => some (t ++ ";\n")
  | .preprocessedSuccess t => some (t ++ ";\n")
  | .failed => none

/-- The input resource as the pipeline sees it: either the input file is
missing (`open` raises `FileNotFoundError`) or it is readable and parses
into a list of items. -/
inductive ScriptInput where
  | missing
  | readable (items : List RawItem)

/-- Observable outcome of one whole run of `convert_mysql_to_dameng` plus
the `__main__` entry: whether the file-not-found handler logged, the final
loop state (`none` when the loop was never reached), whether the success
rate summary line was emitted, and the process exit status.  The code
catches `FileNotFoundError`, logs, and returns normally, and `__main__`
performs no exit-code signalling, so every path exits with status 0.  An
empty parsed list would make the unguarded division raise
`ZeroDivisionError` and suppress the success-rate line — hence
`successRateEmitted := !items.isEmpty` — but the front end returns at
least one parsed element for every script (see `sqlglotParse`), so at
every realizable call site the line is emitted. -/
structure RunOutcome where
  fileNotFoundLogged : Bool
  stats : Option ConvStats
  successRateEmitted : Bool
  exitCode : Nat
deriving DecidableEq

/-- Embedding of `convert_mysql_to_dameng` as run from `__main__`. -/
def convert_mysql_to_dameng (T : String → Option String) :
    ScriptInput → RunOutcome
  | .missing =>
      { fileNotFoundLogged := true, stats := none,
        successRateEmitted := false, exitCode := 0 }
  | .readable items =>
      { fileNotFoundLogged := false, stats := some (runPipeline T items),
        successRateEmitted := !items.isEmpty, exitCode := 0 }

/-!
Embedding of the Dameng generator's `TYPE_MAPPING`.  The dictionary in
`sqlglot/dialects/dameng.py` merges `Oracle.Generator.TYPE_MAPPING` (Oracle
lives outside this repository, so it is abstracted as a `base` function)
with the explicit target overrides listed in the source; an override
shadows the base entry for the same key.
-/

/-- The abstract SQL data types named by the Dameng override table. -/
inductive DType where
  | tinyint | smallint | int | bigint | float | double | decimal | number
  | real
  | char | varchar | nvarchar | text | clob | longtext
  | binary | varbinary | blob | longblob
  | date | time | datetime | timestamp | timestamptz | timestampltz
  | boolean | json | xml
  | mediumint | mediumtext | tinytext | tinyblob | year | enum | set
deriving DecidableEq

/-- The override entries of `Dameng.Generator.TYPE_MAPPING`, exactly as the
dictionary literal in the source lists them. -/
def damengTypeOverrides : DType → Option String
  | .tinyint => some "TINYINT"
  | .smallint => some "SMALLINT"
  | .int => some "INT"
  | .bigint => some "BIGINT"
  | .float => some "FLOAT"
  | .double => some "DOUBLE"
  | .decimal => some "DECIMAL"
  | .number => some "NUMBER"
  | .real => some "REAL"
  | .char => some "CHAR"
  | .varchar => some "VARCHAR"
  | .nvarchar => some "NVARCHAR2"
  | .text => some "TEXT"
  | .clob => some "CLOB"
  | .longtext => some "TEXT"
  | .binary => some "BINARY"
  | .varbinary => some "VARBINARY"
  | .blob => some "BLOB"
  | .longblob => some "BLOB"
  | .date => some "DATE"
  | .time => some "TIME"
  | .datetime => some "DATETIME"
  | .timestamp => some "TIMESTAMP"
  | .timestamptz => some "TIMESTAMP WITH TIME ZONE"
  | .timestampltz => some "TIMESTAMP WITH LOCAL TIME ZONE"
  | .boolean => some "BOOLEAN"
  | .json => some "JSON"
  | .xml => some "XML"
  | .mediumint => some "INT"
  | .mediumtext => some "TEXT"
  | .tinytext => some "TEXT"
  | .tinyblob => some "BLOB"
  | .year => some "SMALLINT"
  | .enum => some "VARCHAR"
  | .set => some "VARCHAR"

/-- The merged `TYPE_MAPPING` used by the Dameng generator: the override
table shadows the inherited Oracle entry. -/
def damengTypeMapping (base : DType → String) (t : DType) : String :=
  match damengTypeOverrides t with
  | some s => s
  | none => base t

/-- Reference definition following the claim's words for the global charset
rewrite: walk the script once; wherever the next seven characters are a
case-insensitive occurrence of `utf8mb4` — whatever the surrounding context
— emit the fixed uppercase `UTF8` and skip past the occurrence, otherwise
keep the character. -/
def utf8mb4SubstSpec (l : List Char) : List Char :=
  match l with
  | [] => []
  | c :: cs =>
    if (mUtf8mb4 (c :: cs)).isSome then
      "UTF8".data ++ utf8mb4SubstSpec (cs.drop 6)
    else
      c :: utf8mb4SubstSpec cs
termination_by l.length
decreasing_by
  · simp only [List.length_drop, List.length_cons]
    omega
  · simp only [List.length_cons]
    omega

/-- A successful case-insensitive literal match consumes exactly the
pattern's length. -/
theorem matchLitCI_some (p : List Char) :
    ∀ l r : List Char, matchLitCI p l = some r →
      r = l.drop p.length ∧ p.length ≤ l.length := by
  induction p with
  | nil =>
    intro l r h
    simp [matchLitCI] at h
    simp [h]
  | cons q ps ih =>
    intro l r h
    cases l with
    | nil => simp [matchLitCI] at h
    | cons c cs =>
      by_cases hq : q.toLower = c.toLower
      · simp [matchLitCI, hq] at h
        obtain ⟨h1, h2⟩ := ih cs r h
        refine ⟨h1, ?_⟩
        simpa using Nat.succ_le_succ h2
      · simp [matchLitCI, hq] at h

/-- If the pattern matches nowhere in `l`, the scan leaves `l` unchanged. -/
theorem scanSubAux_id_of_noMatch (m : List Char → Option (List Char))
    (repl : List Char) :
    ∀ (fuel : Nat) (l : List Char), (∀ i, m (l.drop i) = none) →
      scanSubAux m repl fuel l = l := by
  intro fuel
  induction fuel with
  | zero => intro l _; rfl
  | succ n ih =>
    intro l h
    cases l with
    | nil => rfl
    | cons c cs =>
      have h0 : m (c :: cs) = none := h 0
      have htail : ∀ i, m (cs.drop i) = none := fun i => h (i + 1)
      simp [scanSubAux, h0, ih cs htail]

/-- The bounded decidable scan `hasMatch` refutes matches at every
position, including positions past the end. -/
theorem noMatch_of_hasMatch_false (m : List Char → Option (List Char))
    (l : List Char) (h : hasMatch m l = false) :
    ∀ i, m (l.drop i) = none := by
  intro i
  have hall : ∀ j ∈ List.range (l.length + 1), (m (l.drop j)).isSome = false := by
    simpa [hasMatch, List.any_eq_false] using h
  by_cases hi : i ≤ l.length
  · have := hall i (List.mem_range.mpr (Nat.lt_succ_of_le hi))
    cases hm : m (l.drop i) with
    | none => rfl
    | some r => rw [hm] at this; simp at this
  · have hnil : l.drop i = [] := List.drop_eq_nil_of_le (by omega)
    have hlen : l.drop l.length = [] := by simp
    have := hall l.length (List.mem_range.mpr (Nat.lt_succ_self _))
    rw [hlen] at this
    rw [hnil]
    cases hm : m [] with
    | none => rfl
    | some r => rw [hm] at this; simp at this

/-- A rule whose pattern has no match in `s` maps `s` to itself. -/
theorem applyRuleStr_id_of_hasMatch_false (m : List Char → Option (List Char))
    (s : String) (h : hasMatch m s.data = false) : applyRuleStr m s = s := by
  unfold applyRuleStr
  rw [scanSubAux_id_of_noMatch m [] s.data.length s.data
    (noMatch_of_hasMatch_false m s.data h)]

/-!  General lemmas about the pipeline loop. -/

/-- Running the statement loop from an arbitrary state shifts the from-zero
result by that state: counters add, output concatenates. -/
theorem foldl_stepStmt_shift (T : String → Option String) :
    ∀ (items : List RawItem) (st : ConvStats),
      items.foldl (stepStmt T) st =
        ⟨st.direct + (runPipeline T items).direct,
         st.preproc + (runPipeline T items).preproc,
         st.failed + (runPipeline T items).failed,
         st.out ++ (runPipeline T items).out⟩ := by
  intro items
  induction items with
  | nil => intro st; simp [runPipeline]
  | cons it its ih =>
    intro st
    have hcons : runPipeline T (it :: its) =
        its.foldl (stepStmt T) (stepStmt T ⟨0, 0, 0, []⟩ it) := rfl
    rw [hcons, ih (stepStmt T ⟨0, 0, 0, []⟩ it)]
    have hl : (it :: its).foldl (stepStmt T) st =
        its.foldl (stepStmt T) (stepStmt T st it) := rfl
    rw [hl, ih (stepStmt T st it)]
    cases ho : (processStmt T it).outcome with
    | directSuccess t =>
      simp [stepStmt, ho, Nat.add_assoc, Nat.add_comm, Nat.add_left_comm]
    | preprocessedSuccess t =>
      simp [stepStmt, ho, Nat.add_assoc, Nat.add_comm, Nat.add_left_comm]
    | failed =>
      simp [stepStmt, ho, Nat.add_assoc, Nat.add_comm, Nat.add_left_comm]

/-- The scanner for the `utf8mb4` rewrite agrees with the one-pass
reference definition whenever the fuel covers the input. -/
theorem scanSubAux_utf8_eq_spec :
    ∀ (fuel : Nat) (l : List Char), l.length ≤ fuel →
      scanSubAux mUtf8mb4 "UTF8".data fuel l = utf8mb4SubstSpec l := by
  intro fuel
  induction fuel with
  | zero =>
    intro l hl
    have : l = [] := List.eq_nil_of_length_eq_zero (Nat.le_zero.mp hl)
    subst this
    rw [utf8mb4SubstSpec]
    rfl
  | succ n ih =>
    intro l hl
    cases l with
    | nil => rw [utf8mb4SubstSpec]; rfl
    | cons c cs =>
      cases hm : mUtf8mb4 (c :: cs) with
      | none =>
        rw [utf8mb4SubstSpec]
        simp only [scanSubAux, hm, Option.isSome_none, Bool.false_eq_true,
          if_false]
        rw [ih cs (by simpa using Nat.le_of_succ_le_succ hl)]
      | some rest =>
        obtain ⟨hr, hlen⟩ := matchLitCI_some "utf8mb4".data (c :: cs) rest hm
        have h7 : ("utf8mb4".data).length = 7 := rfl
        rw [h7] at hr hlen
        rw [utf8mb4SubstSpec]
        simp only [scanSubAux, hm, Option.isSome_some, if_true]
        have hdrop : (c :: cs).drop 7 = cs.drop 6 := rfl
        rw [hr, hdrop]
        congr 1
        apply ih
        have : (cs.drop 6).length = cs.length - 6 := by simp
    

    
        simp only [List.length_cons] at hl
        omega

/-- Claim C1, counterexample: the full rule sequence is not idempotent.
Deleting a match of `USING\s+BTREE` can splice the surrounding text into a
new match: one application sends `USING USING BTREE BTREE` to
`USING  BTREE`, which a second application deletes entirely. -/
theorem c1_preprocess_not_idempotent :
    preprocess_sql_statement "USING USING BTREE BTREE" = "USING  BTREE" ∧
    preprocess_sql_statement (preprocess_sql_statement "USING USING BTREE BTREE") = "" ∧
    preprocess_sql_statement (preprocess_sql_statement "USING USING BTREE BTREE") ≠
      preprocess_sql_statement "USING USING BTREE BTREE" := by
  refine ⟨by decide, by decide, by decide⟩

/-- Claim C1, amended: the per-statement normalization is idempotent on
every statement text whose normalized form contains no residual
case-insensitive match of any of the four stripped patterns (in particular
on every text where deletion does not splice a new match together). -/
theorem c1_preprocess_idempotent_of_matchFree (x : String)
    (h : ruleMatchFree (preprocess_sql_statement x) = true) :
    preprocess_sql_statement (preprocess_sql_statement x) =
      preprocess_sql_statement x := by
  set y := preprocess_sql_statement x with hy
  have hs : hasMatch mUsingBtree y.data = false ∧
      hasMatch mOnUpdate y.data = false ∧
      hasMatch mRowFormat y.data = false ∧
      hasMatch mAutoInc y.data = false := by
    have h2 := h
    simp only [ruleMatchFree, Bool.not_eq_eq_eq_not, Bool.not_true,
      Bool.or_eq_false_iff] at h2
    exact ⟨h2.1.1.1, h2.1.1.2, h2.1.2, h2.2⟩
  have e1 : applyRuleStr mUsingBtree y = y :=
    applyRuleStr_id_of_hasMatch_false _ _ hs.1
  have e2 : applyRuleStr mOnUpdate y = y :=
    applyRuleStr_id_of_hasMatch_false _ _ hs.2.1
  have e3 : applyRuleStr mRowFormat y = y :=
    applyRuleStr_id_of_hasMatch_false _ _ hs.2.2.1
  have e4 : applyRuleStr mAutoInc y = y :=
    applyRuleStr_id_of_hasMatch_false _ _ hs.2.2.2
  show applyRuleStr mAutoInc
      (applyRuleStr mRowFormat
        (applyRuleStr mOnUpdate (applyRuleStr mUsingBtree y))) = y
  rw [e1, e2, e3, e4]

/-- Witness for the amended C1 theorem at the concrete statement
`SELECT 1`. -/
theorem c1_idempotent_witness :
    ruleMatchFree (preprocess_sql_statement "SELECT 1") = true ∧
    preprocess_sql_statement (preprocess_sql_statement "SELECT 1") =
      preprocess_sql_statement "SELECT 1" :=
  ⟨by decide, c1_preprocess_idempotent_of_matchFree "SELECT 1" (by decide)⟩

/-- Claim C2: after the statement loop, the counters satisfy
`total = directSuccess + preprocessedSuccess + failed` (each parsed element
bumps exactly one counter), and the empty script yields the all-zero
state. -/
theorem c2_stats_invariant (T : String → Option String)
    (items : List RawItem) :
    (runPipeline T items).direct + (runPipeline T items).preproc +
        (runPipeline T items).failed = items.length ∧
    runPipeline T [] = ⟨0, 0, 0, []⟩ := by
  refine ⟨?_, rfl⟩
  induction items with
  | nil => rfl
  | cons it its ih =>
    have hcons : runPipeline T (it :: its) =
        its.foldl (stepStmt T) (stepStmt T ⟨0, 0, 0, []⟩ it) := rfl
    rw [hcons, foldl_stepStmt_shift T its]
    cases ho : (processStmt T it).outcome with
    | directSuccess t => simp [stepStmt, ho]; omega
    | preprocessedSuccess t => simp [stepStmt, ho]; omega
    | failed => simp [stepStmt, ho]; omega

/-- Claim C3: when the direct transpile of a statement succeeds, the
pipeline classifies it as a direct success and never hands any text to the
preprocessor for that statement. -/
theorem c3_direct_success_skips_preprocessor (T : String → Option String)
    (src es d : String) (h : T es = some d) :
    (processStmt T (RawItem.expr src es)).preprocessInput = none ∧
    (processStmt T (RawItem.expr src es)).outcome = Outcome.directSuccess d := by
  simp [processStmt, h]

/-- Witness for C3 with the identity-like oracle that renders every
statement directly. -/
theorem c3_direct_success_witness :
    (processStmt (fun s => some s)
        (RawItem.expr "select 1" "SELECT 1")).preprocessInput = none ∧
    (processStmt (fun s => some s)
        (RawItem.expr "select 1" "SELECT 1")).outcome =
      Outcome.directSuccess "SELECT 1" :=
  c3_direct_success_skips_preprocessor (fun s => some s)
    "select 1" "SELECT 1" "SELECT 1" rfl

/-- Claim C4: the chunks written to the output file are exactly the
rendered texts of the non-failed statements, in input order, each followed
by the `;` terminator and a newline; failed statements contribute
nothing. -/
theorem c4_output_is_ordered_successes (T : String → Option String)
    (items : List RawItem) :
    (runPipeline T items).out = items.filterMap (emitted T) := by
  induction items with
  | nil => rfl
  | cons it its ih =>
    have hcons : runPipeline T (it :: its) =
        its.foldl (stepStmt T) (stepStmt T ⟨0, 0, 0, []⟩ it) := rfl
    rw [hcons, foldl_stepStmt_shift T its]
    cases ho : (processStmt T it).outcome with
    | directSuccess t => simp [stepStmt, emitted, ho, ih, List.filterMap_cons]
    | preprocessedSuccess t =>
      simp [stepStmt, emitted, ho, ih, List.filterMap_cons]
    | failed => simp [stepStmt, emitted, ho, ih, List.filterMap_cons]

/-- Claim C6: earlier statements never prevent later ones from being
processed — the loop state over a concatenation is the componentwise
combination of the runs over the two halves, so every statement reaches a
terminal outcome and all successes are emitted. -/
theorem c6_failures_never_abort (T : String → Option String)
    (xs ys : List RawItem) :
    runPipeline T (xs ++ ys) =
      ⟨(runPipeline T xs).direct + (runPipeline T ys).direct,
       (runPipeline T xs).preproc + (runPipeline T ys).preproc,
       (runPipeline T xs).failed + (runPipeline T ys).failed,
       (runPipeline T xs).out ++ (runPipeline T ys).out⟩ := by
  have h1 : runPipeline T (xs ++ ys) =
      ys.foldl (stepStmt T) (xs.foldl (stepStmt T) ⟨0, 0, 0, []⟩) := by
    unfold runPipeline
    rw [List.foldl_append]
  rw [h1, foldl_stepStmt_shift T ys (xs.foldl (stepStmt T) ⟨0, 0, 0, []⟩)]
  rfl

/-- Claim C7, code evaluated at the failing input: a missing input file is
logged once by the dedicated handler and the loop never runs, but the
exception is swallowed and `__main__` performs no exit-code signalling, so
the process exit status is 0 (successful), not non-successful. -/
theorem c7_missing_file_exits_zero :
    convert_mysql_to_dameng (fun _ => none) ScriptInput.missing =
      { fileNotFoundLogged := true, stats := none,
        successRateEmitted := false, exitCode := 0 } := rfl

/-- Claim C8, counterexample: the text handed to the preprocessor is
`expr.sql()`, the re-rendering of the parse tree, not the statement's text
as it appeared in the input script; for a statement whose input span
differs from its tree rendering the two disagree. -/
theorem c8_preprocess_input_not_source_text :
    (processStmt (fun _ => none)
        (RawItem.expr "select 1 from t" "SELECT 1 FROM t")).preprocessInput ≠
      some "select 1 from t" ∧
    (processStmt (fun _ => none)
        (RawItem.expr "select 1 from t" "SELECT 1 FROM t")).preprocessInput =
      some "SELECT 1 FROM t" := by
  refine ⟨by decide, by decide⟩

/-- Claim C8, amended: when the direct attempt fails, the normalization
rules are applied to the statement's regenerated text `expr.sql()` (not the
raw input span), and the fallback outcome is exactly the transpile of that
normalized regenerated text. -/
theorem c8_fallback_renormalizes_exprSql (T : String → Option String)
    (src es : String) (h : T es = none) :
    (processStmt T (RawItem.expr src es)).preprocessInput = some es ∧
    (processStmt T (RawItem.expr src es)).outcome =
      (match T (preprocess_sql_statement es) with
       | some p => Outcome.preprocessedSuccess p
       | none => Outcome.failed) := by
  cases hp : T (preprocess_sql_statement es) <;> simp [processStmt, h, hp]

/-- Witness for the amended C8 theorem with an oracle that always fails. -/
theorem c8_fallback_witness :
    (processStmt (fun _ => none) (RawItem.expr "a" "b")).preprocessInput =
      some "b" ∧
    (processStmt (fun _ => none) (RawItem.expr "a" "b")).outcome =
      (match (fun _ => none : String → Option String)
          (preprocess_sql_statement "b") with
       | some p => Outcome.preprocessedSuccess p
       | none => Outcome.failed) :=
  c8_fallback_renormalizes_exprSql (fun _ => none) "a" "b" rfl

/-- Claim C9: whatever the inherited Oracle entries are, the Dameng type
registry maps MEDIUMINT to INT and collapses TINYTEXT, MEDIUMTEXT and
LONGTEXT onto TEXT. -/
theorem c9_type_mapping_overrides (base : DType → String) :
    damengTypeMapping base DType.mediumint = "INT" ∧
    damengTypeMapping base DType.tinytext = "TEXT" ∧
    damengTypeMapping base DType.mediumtext = "TEXT" ∧
    damengTypeMapping base DType.longtext = "TEXT" :=
  ⟨rfl, rfl, rfl, rfl⟩

/-- Claim C10: the global charset rewrite is a bare, context-free,
case-insensitive substring substitution — it coincides on every script with
the one-pass reference substitution that replaces each occurrence of
`utf8mb4` by the fixed uppercase `UTF8`, and in particular it fires inside
parenthesised literal text, inside longer identifiers such as
`utf8mb4_general_ci`, and on any casing. -/
theorem c10_charset_bare_substitution :
    (∀ s : String, globalCharsetNormalize s = ⟨utf8mb4SubstSpec s.data⟩) ∧
    globalCharsetNormalize "SET NAMES utf8mb4" = "SET NAMES UTF8" ∧
    globalCharsetNormalize "COLLATE utf8mb4_general_ci" =
      "COLLATE UTF8_general_ci" ∧
    globalCharsetNormalize "INSERT INTO t VALUES (xxUTF8MB4yy)" =
      "INSERT INTO t VALUES (xxUTF8yy)" ∧
    globalCharsetNormalize "UtF8mB4" = "UTF8" := by
  refine ⟨?_, by decide, by decide, by decide, by decide⟩
  intro s
  show (⟨scanSubAux mUtf8mb4 "UTF8".data s.data.length s.data⟩ : String) = _
  rw [scanSubAux_utf8_eq_spec s.data.length s.data (Nat.le_refl _)]
